import Mathlib

/-!
Shallow embedding of the payout-analytics pipeline in `src/app.py`
(repository `apex-payout-data`).

The embedded functions mirror, line by line, the Python source:
`parse_currency`, `extract_country`, the column normalization and the
nested `parse_date` of `load_data`, the row-dropping step, and the
sidebar/aggregation logic of `main` (year filter, total metrics,
country and month group-by aggregations).

Modelling conventions:
* a pandas cell that may be missing (`pd.isna`) is an `Option String`;
* Python `float` values are modelled as exact rationals `ℚ` (every
  literal appearing in the spec is exactly representable);
* `re.search` with the pattern `(-?\$?\s*\d+(?:\.\d+)?)` is modelled by
  a leftmost scan; for this particular pattern greedy matching without
  backtracking is equivalent to the regex engine (each optional piece,
  once matched, consumes a character that can never begin the following
  mandatory piece, so backtracking never rescues a failed position);
* `datetime.strptime` for the three fixed formats is modelled from
  CPython's `_strptime` patterns: `%Y` is exactly four digits, `%d` is
  `3[01]|[12]\d|0[1-9]|[1-9]`, `%m` is `1[0-2]|0[1-9]|[1-9]`, `%b` is a
  case-insensitive three-letter English month abbreviation, a literal
  space in the format matches one-or-more whitespace, the whole string
  must be consumed, and the resulting calendar date must be valid.
-/

namespace ApexPayout

/-- ASCII whitespace as matched by Python's `\s` and stripped by `str.strip`. -/
def pyIsSpace (c : Char) : Bool :=
  c = ' ' ∨ c = '\t' ∨ c = '\n' ∨ c = '\r' ∨ c = '\x0b' ∨ c = '\x0c'

/-- Python `str.strip()` on a character list. -/
def pyStrip (cs : List Char) : List Char :=
  ((cs.dropWhile pyIsSpace).reverse.dropWhile pyIsSpace).reverse

/-- Python `str.strip()` on a string. -/
def pyStripS (s : String) : String :=
  String.mk (pyStrip s.data)

/-- Numeric value of a list of decimal digit characters. -/
def digitsToNat (ds : List Char) : Nat :=
  ds.foldl (fun n c => 10 * n + (c.toNat - 48)) 0

/-- Rational value of an integer digit part plus an optional fraction part. -/
def decimalToRat (ds fs : List Char) : ℚ :=
  (digitsToNat ds : ℚ) + (digitsToNat fs : ℚ) / (10 : ℚ) ^ fs.length

/-- Python `float(s)` restricted to the token shapes reachable from
`parse_currency`: an optional leading minus sign followed immediately by
digits and an optional fractional part.  Any other remaining character
(in particular whitespace after the minus sign) raises in Python and
yields `none` here. -/
def pyFloat (cs : List Char) : Option ℚ :=
  let core : List Char → Option ℚ := fun l =>
    let ds := l.takeWhile Char.isDigit
    let rest := l.dropWhile Char.isDigit
    if ds = [] then none
    else
      match rest with
      | [] => some (decimalToRat ds [])
      | '.' :: t =>
          let fs := t.takeWhile Char.isDigit
          if fs = [] then none
          else if t.dropWhile Char.isDigit = [] then some (decimalToRat ds fs)
          else none
      | _ => none
  match cs with
  | '-' :: rest => (core rest).map Neg.neg
  | _ => core cs

/-- One attempt of the regex `(-?\$?\s*\d+(?:\.\d+)?)` anchored at the
head of `cs`; returns the matched group text. -/
def matchNumAt (cs : List Char) : Option (List Char) :=
  let sign : List Char := if cs.head? = some '-' then ['-'] else []
  let cs1 : List Char := if cs.head? = some '-' then cs.tail else cs
  let dol : List Char := if cs1.head? = some '$' then ['$'] else []
  let cs2 : List Char := if cs1.head? = some '$' then cs1.tail else cs1
  let ws := cs2.takeWhile pyIsSpace
  let cs3 := cs2.dropWhile pyIsSpace
  let ds := cs3.takeWhile Char.isDigit
  let cs4 := cs3.dropWhile Char.isDigit
  if ds = [] then none
  else
    let frac : List Char :=
      match cs4 with
      | '.' :: t =>
          let fs := t.takeWhile Char.isDigit
          if fs = [] then [] else '.' :: fs
      | _ => []
    some (sign ++ dol ++ ws ++ ds ++ frac)

/-- `re.search` for the currency pattern: leftmost position whose
anchored match succeeds. -/
def searchNum : List Char → Option (List Char)
  | [] => none
  | c :: rest =>
      match matchNumAt (c :: rest) with
      | some m => some m
      | none => searchNum rest

/-- A character that the currency pattern (or the preceding comma
stripping) can react to: minus sign, dollar sign, comma, digit or
whitespace.  Any other character can never start, or occur inside, a
match of the pattern. -/
def currencyRelevant (c : Char) : Bool :=
  c = '-' ∨ c = '$' ∨ c = ',' ∨ c.isDigit ∨ pyIsSpace c

/-- Embedding of `parse_currency` (src/app.py lines 13-24): `None` for a
missing cell, otherwise strip commas, search for the numeric pattern,
drop `$` from the match, strip whitespace and convert to a number. -/
def parse_currency (value : Option String) : Option ℚ :=
  match value with
  | none => none
  | some s =>
      let cs := s.data.filter (fun c => c ≠ ',')
      match searchNum cs with
      | none => none
      | some tok => pyFloat (pyStrip (tok.filter (fun c => c ≠ '$')))

/-- The fixed synonym table of `extract_country` (src/app.py lines 37-40). -/
def countrySynonyms : List (String × String) :=
  [("USA", "USA"), ("US", "USA"), ("U.S.A.", "USA"), ("United States", "USA"),
   ("UK", "UK"), ("U.K.", "UK"), ("United Kingdom", "UK")]

/-- Python `s.split(',')`: the comma-separated pieces, empty pieces
included (splitting the empty string gives one empty piece). -/
def splitComma : List Char → List (List Char)
  | [] => [[]]
  | c :: rest =>
      match splitComma rest with
      | [] => [[c]]
      | hd :: tl => if c = ',' then [] :: hd :: tl else (c :: hd) :: tl

/-- The last non-empty whitespace-trimmed comma-separated segment of a
location string, mirroring `[p.strip() for p in s.split(',') if p.strip()]`
followed by `parts[-1]`. -/
def last_segment (s : String) : Option String :=
  (((splitComma s.data).map fun p => String.mk (pyStrip p)).filter
    (fun p => p ≠ "")).getLast?

/-- Embedding of `extract_country` (src/app.py lines 27-43): `Unknown`
for a missing or fully empty location, otherwise the synonym-mapped (or
verbatim) last segment. -/
def extract_country (location : Option String) : String :=
  match location with
  | none => "Unknown"
  | some s =>
      match last_segment s with
      | none => "Unknown"
      | some last => ((countrySynonyms.lookup last).getD last)

/-- Embedding of the column-name normalization loop of `load_data`
(src/app.py lines 52-61): strip, lowercase, match against the fixed
synonym sets. `none` means the column is left untouched. -/
def normalize_column (col : String) : Option String :=
  let c := String.mk ((pyStrip col.data).map Char.toLower)
  if c = "date" then some "Date"
  else if c = "name" then some "Name"
  else if c = "location" ∨ c = "country" then some "Location"
  else if c = "payout" ∨ c = "amount" then some "Payout"
  else none

/-- A parsed calendar date. -/
structure SimpleDate where
  year : Nat
  month : Nat
  day : Nat
deriving DecidableEq, Repr

/-- Gregorian leap-year predicate (as used by `datetime`). -/
def isLeap (y : Nat) : Bool :=
  y % 4 = 0 ∧ (y % 100 ≠ 0 ∨ y % 400 = 0)

/-- Number of days in a month, as validated by `datetime(year, month, day)`. -/
def daysInMonth (y m : Nat) : Nat :=
  if m = 2 then (if isLeap y then 29 else 28)
  else if m = 4 ∨ m = 6 ∨ m = 9 ∨ m = 11 then 30
  else 31

/-- `datetime(year, month, day)` construction: `none` when the triple is
not a valid calendar date (the `except` branch of `parse_date`). -/
def mkValidDate (y m d : Nat) : Option SimpleDate :=
  if 1 ≤ y ∧ y ≤ 9999 ∧ 1 ≤ m ∧ m ≤ 12 ∧ 1 ≤ d ∧ d ≤ daysInMonth y m then
    some ⟨y, m, d⟩
  else none

/-- The lowercase three-letter month abbreviations matched by `%b`. -/
def monthAbbrs : List String :=
  ["jan", "feb", "mar", "apr", "may", "jun",
   "jul", "aug", "sep", "oct", "nov", "dec"]

/-- `%b`: case-insensitive three-letter month abbreviation. -/
def parseAbbr (cs : List Char) : Option (Nat × List Char) :=
  match cs with
  | c1 :: c2 :: c3 :: rest =>
      let w := String.mk [c1.toLower, c2.toLower, c3.toLower]
      match monthAbbrs.indexOf? w with
      | some i => some (i + 1, rest)
      | none => none
  | _ => none

/-- A literal space in a `strptime` format: one-or-more whitespace. -/
def parseWS (cs : List Char) : Option (List Char) :=
  match cs with
  | c :: rest => if pyIsSpace c then some (rest.dropWhile pyIsSpace) else none
  | [] => none

/-- An exact literal character of the format. -/
def parseLit (c : Char) (cs : List Char) : Option (List Char) :=
  match cs with
  | c0 :: rest => if c0 = c then some rest else none
  | [] => none

/-- `%d`: CPython pattern `3[01]|[12]\d|0[1-9]|[1-9]`, alternatives in order. -/
def parseDayNum (cs : List Char) : Option (Nat × List Char) :=
  match cs with
  | c1 :: c2 :: rest =>
      if c1 = '3' ∧ (c2 = '0' ∨ c2 = '1') then
        some (30 + (c2.toNat - 48), rest)
      else if (c1 = '1' ∨ c1 = '2') ∧ c2.isDigit then
        some (10 * (c1.toNat - 48) + (c2.toNat - 48), rest)
      else if c1 = '0' ∧ ('1' ≤ c2 ∧ c2 ≤ '9') then
        some (c2.toNat - 48, rest)
      else if '1' ≤ c1 ∧ c1 ≤ '9' then
        some (c1.toNat - 48, c2 :: rest)
      else none
  | [c1] => if '1' ≤ c1 ∧ c1 ≤ '9' then some (c1.toNat - 48, []) else none
  | [] => none

/-- `%m`: CPython pattern `1[0-2]|0[1-9]|[1-9]`, alternatives in order. -/
def parseMonthNum (cs : List Char) : Option (Nat × List Char) :=
  match cs with
  | c1 :: c2 :: rest =>
      if c1 = '1' ∧ ('0' ≤ c2 ∧ c2 ≤ '2') then
        some (10 + (c2.toNat - 48), rest)
      else if c1 = '0' ∧ ('1' ≤ c2 ∧ c2 ≤ '9') then
        some (c2.toNat - 48, rest)
      else if '1' ≤ c1 ∧ c1 ≤ '9' then
        some (c1.toNat - 48, c2 :: rest)
      else none
  | [c1] => if '1' ≤ c1 ∧ c1 ≤ '9' then some (c1.toNat - 48, []) else none
  | [] => none

/-- `%Y`: exactly four digits. -/
def parseYear4 (cs : List Char) : Option (Nat × List Char) :=
  match cs with
  | c1 :: c2 :: c3 :: c4 :: rest =>
      if c1.isDigit ∧ c2.isDigit ∧ c3.isDigit ∧ c4.isDigit then
        some (digitsToNat [c1, c2, c3, c4], rest)
      else none
  | _ => none

/-- `strptime(s, "%b %d, %Y")`, full-match plus calendar validation. -/
def tryFmtMonthName (cs : List Char) : Option SimpleDate := do
  let (m, r1) ← parseAbbr cs
  let r2 ← parseWS r1
  let (d, r3) ← parseDayNum r2
  let r4 ← parseLit ',' r3
  let r5 ← parseWS r4
  let (y, r6) ← parseYear4 r5
  if r6 = [] then mkValidDate y m d else none

/-- `strptime(s, "%Y-%m-%d")`, full-match plus calendar validation. -/
def tryFmtIso (cs : List Char) : Option SimpleDate := do
  let (y, r1) ← parseYear4 cs
  let r2 ← parseLit '-' r1
  let (m, r3) ← parseMonthNum r2
  let r4 ← parseLit '-' r3
  let (d, r5) ← parseDayNum r4
  if r5 = [] then mkValidDate y m d else none

/-- `strptime(s, "%m/%d/%Y")`, full-match plus calendar validation. -/
def tryFmtSlash (cs : List Char) : Option SimpleDate := do
  let (m, r1) ← parseMonthNum cs
  let r2 ← parseLit '/' r1
  let (d, r3) ← parseDayNum r2
  let r4 ← parseLit '/' r3
  let (y, r5) ← parseYear4 r4
  if r5 = [] then mkValidDate y m d else none

/-- Embedding of the nested `parse_date` of `load_data` (src/app.py
lines 69-77): `NaT` for a missing cell, otherwise the three formats are
tried in their fixed priority order and the first success wins. -/
def parse_date (s : Option String) : Option SimpleDate :=
  match s with
  | none => none
  | some str =>
      (tryFmtMonthName str.data).orElse fun _ =>
        (tryFmtIso str.data).orElse fun _ =>
          tryFmtSlash str.data

/-- Zero-padded two-digit rendering (month part of a `Period` string). -/
def pad2 (n : Nat) : String :=
  if n < 10 then "0" ++ toString n else toString n

/-- Zero-padded four-digit rendering (year part of a `Period` string). -/
def pad4 (n : Nat) : String :=
  if n < 10 then "000" ++ toString n
  else if n < 100 then "00" ++ toString n
  else if n < 1000 then "0" ++ toString n
  else toString n

/-- `df['Date'].dt.to_period('M').astype(str)` for one cell: the string
`YYYY-MM`, or the string `NaT` for a missing date. -/
def toYearMonth (d : Option SimpleDate) : String :=
  match d with
  | none => "NaT"
  | some d => pad4 d.year ++ "-" ++ pad2 d.month

/-- A raw row after column normalization: the four expected columns,
each possibly missing. -/
structure RawRow where
  date : Option String
  name : Option String
  location : Option String
  payout : Option String
deriving DecidableEq, Repr

/-- A row of the table built by `load_data` before the drop step. -/
structure NormRow where
  date : Option SimpleDate
  name : Option String
  location : Option String
  payout : Option String
  yearMonth : String
  payoutValue : Option ℚ
  country : String
deriving DecidableEq, Repr

/-- The per-row transformation of `load_data` (src/app.py lines 79-86):
parse the date, derive `YearMonth`, parse the payout, derive `Country`. -/
def normalizeRow (r : RawRow) : NormRow :=
  let d := parse_date r.date
  { date := d
    name := r.name
    location := r.location
    payout := r.payout
    yearMonth := toYearMonth d
    payoutValue := parse_currency r.payout
    country := extract_country r.location }

/-- Embedding of `load_data` (src/app.py lines 46-90) at the row level:
normalize every row, then `dropna(subset=['PayoutValue', 'Date'])`. -/
def load_data (rows : List RawRow) : List NormRow :=
  (rows.map normalizeRow).filter fun r => r.payoutValue.isSome && r.date.isSome

/-- The sidebar year filter of `main` (src/app.py lines 107-109): a
falsy (empty) selection applies no filtering at all. -/
def filter_years (years : List Nat) (tbl : List NormRow) : List NormRow :=
  if years.isEmpty then tbl
  else tbl.filter fun r =>
    match r.date with
    | some d => years.contains d.year
    | none => false

/-- `df['PayoutValue'].sum()`: pandas sums the non-null values. -/
def total_payout (tbl : List NormRow) : ℚ :=
  (tbl.map fun r => r.payoutValue.getD 0).sum

/-- `len(df)`. -/
def total_records (tbl : List NormRow) : Nat :=
  tbl.length

/-- String order used by pandas when sorting group keys: `a` comes no
later than `b`. -/
def strLe (a b : String) : Bool :=
  !(decide (b < a))

/-- Stable insertion into a list sorted by `le`: the new element, which
stood earlier in the original list, goes before any element it ties with. -/
def insertOrd (le : α → α → Bool) (x : α) : List α → List α
  | [] => [x]
  | y :: ys => if le x y then x :: y :: ys else y :: insertOrd le x ys

/-- Stable insertion sort by `le`. -/
def sortOrd (le : α → α → Bool) (l : List α) : List α :=
  l.foldr (insertOrd le) []

/-- The per-group sum of `PayoutValue` for one country key. -/
def countryGroupSum (k : String) (tbl : List NormRow) : ℚ :=
  ((tbl.filter fun r => r.country == k).map fun r => r.payoutValue.getD 0).sum

/-- `df.groupby('Country', as_index=False)['PayoutValue'].sum()`:
group keys in sorted order (pandas `sort=True` default), one summed
value per key. -/
def countryGroups (tbl : List NormRow) : List (String × ℚ) :=
  (sortOrd strLe (tbl.map fun r => r.country).dedup).map
    fun k => (k, countryGroupSum k tbl)

/-- The country aggregation of `main` (src/app.py line 122): group by
`Country`, sum, then `sort_values('PayoutValue', ascending=False)`. -/
def country_agg (tbl : List NormRow) : List (String × ℚ) :=
  sortOrd (fun a b => decide (b.2 ≤ a.2)) (countryGroups tbl)

/-- The per-group sum of `PayoutValue` for one year-month key. -/
def monthGroupSum (k : String) (tbl : List NormRow) : ℚ :=
  ((tbl.filter fun r => r.yearMonth == k).map fun r => r.payoutValue.getD 0).sum

/-- The month aggregation of `main` (src/app.py line 130): group by
`YearMonth`, sum, then `sort_values('YearMonth')` ascending. -/
def month_agg (tbl : List NormRow) : List (String × ℚ) :=
  sortOrd (fun a b => strLe a.1 b.1)
    ((sortOrd strLe (tbl.map fun r => r.yearMonth).dedup).map
      fun k => (k, monthGroupSum k tbl))

/-! ### Helper lemmas -/

/-- An anchored match attempt fails on a head character the pattern
cannot react to. -/
lemma matchNumAt_cons_none (c : Char) (l : List Char)
    (hm : ¬ c = '-') (hd : ¬ c = '$') (hs : pyIsSpace c = false)
    (hdg : c.isDigit = false) :
    matchNumAt (c :: l) = none := by
  simp [matchNumAt, hm, hd, hs, hdg, List.takeWhile_cons, List.dropWhile_cons]

/-- The leftmost search steps over a position whose anchored match fails. -/
lemma searchNum_cons_of_none (c : Char) (l : List Char)
    (h : matchNumAt (c :: l) = none) :
    searchNum (c :: l) = searchNum l := by
  simp only [searchNum, h]

/-- A leading character that the currency machinery cannot react to is
simply skipped by the search: it never turns a successful parse into a
failure. -/
lemma parse_currency_cons_irrelevant (c : Char) (s : String)
    (h : currencyRelevant c = false) :
    parse_currency (some (String.mk (c :: s.data))) = parse_currency (some s) := by
  have hm : ¬ c = '-' := by
    intro hc; rw [currencyRelevant, hc] at h; simp at h
  have hd : ¬ c = '$' := by
    intro hc; rw [currencyRelevant, hc] at h; simp at h
  have hc' : ¬ c = ',' := by
    intro hc; rw [currencyRelevant, hc] at h; simp at h
  have hdg : c.isDigit = false := by
    cases hx : c.isDigit
    · rfl
    · rw [currencyRelevant] at h; simp [hx] at h
  have hs : pyIsSpace c = false := by
    cases hx : pyIsSpace c
    · rfl
    · rw [currencyRelevant] at h; simp [hx] at h
  simp only [parse_currency]
  rw [List.filter_cons, if_pos (by simp [hc']),
    searchNum_cons_of_none c _ (matchNumAt_cons_none c _ hm hd hs hdg)]

/-- Stable insertion produces a permutation of consing. -/
lemma insertOrd_perm {α : Type} (le : α → α → Bool) (x : α) (l : List α) :
    List.Perm (insertOrd le x l) (x :: l) := by
  induction l with
  | nil => exact List.Perm.refl _
  | cons y ys ih =>
      rw [insertOrd]
      split
      · exact List.Perm.refl _
      · exact (List.Perm.cons y ih).trans (List.Perm.swap x y ys)

/-- Insertion sort permutes its input. -/
lemma sortOrd_perm {α : Type} (le : α → α → Bool) (l : List α) :
    List.Perm (sortOrd le l) l := by
  induction l with
  | nil => exact List.Perm.refl _
  | cons x xs ih =>
      exact (insertOrd_perm le x (sortOrd le xs)).trans (List.Perm.cons x ih)

/-- Splitting a pointwise sum of two summand functions. -/
lemma sum_map_add {α : Type} (l : List α) (f g : α → ℚ) :
    (l.map fun x => f x + g x).sum = (l.map f).sum + (l.map g).sum := by
  induction l with
  | nil => simp
  | cons x xs ih => simp [ih]; ring

/-- A selective sum over keys not containing the selected key is zero. -/
lemma sum_map_ite_zero (v : ℚ) (c : String) (ks : List String)
    (h : c ∉ ks) :
    (ks.map fun k => if c = k then v else 0).sum = 0 := by
  induction ks with
  | nil => simp
  | cons k ks ih =>
      have h1 : ¬ c = k := fun hc => h (hc ▸ List.mem_cons_self k ks)
      have h2 : c ∉ ks := fun hc => h (List.mem_cons_of_mem k hc)
      simp [h1, ih h2]

/-- A selective sum over a duplicate-free key list containing the
selected key picks out exactly the selected value. -/
lemma sum_map_ite (v : ℚ) (c : String) (ks : List String)
    (hmem : c ∈ ks) (hnd : ks.Nodup) :
    (ks.map fun k => if c = k then v else 0).sum = v := by
  induction ks with
  | nil => cases hmem
  | cons k ks ih =>
      rcases List.mem_cons.mp hmem with h | h
      · subst h
        have hout : c ∉ ks := (List.nodup_cons.mp hnd).1
        simp [sum_map_ite_zero v c ks hout]
      · have h1 : ¬ c = k := by
          intro hc
          exact (List.nodup_cons.mp hnd).1 (hc ▸ h)
        simp [h1, ih h (List.nodup_cons.mp hnd).2]

/-- Peeling one row off a per-country group sum. -/
lemma countryGroupSum_cons (k : String) (r : NormRow) (rest : List NormRow) :
    countryGroupSum k (r :: rest)
      = (if r.country = k then r.payoutValue.getD 0 else 0)
        + countryGroupSum k rest := by
  rw [countryGroupSum, List.filter_cons]
  split
  · next hcond =>
      simp only [beq_iff_eq] at hcond
      simp [hcond, countryGroupSum]
  · next hcond =>
      simp only [beq_iff_eq] at hcond
      simp [hcond, countryGroupSum]

/-- Summing the per-country group sums over any duplicate-free list of
keys covering the table recovers the total payout. -/
lemma sum_countryGroupSum (tbl : List NormRow) (ks : List String)
    (hnd : ks.Nodup) (hcov : ∀ r ∈ tbl, r.country ∈ ks) :
    (ks.map fun k => countryGroupSum k tbl).sum = total_payout tbl := by
  induction tbl with
  | nil =>
      have hz : ∀ k : String, countryGroupSum k ([] : List NormRow) = 0 := by
        intro k; rfl
      simp [hz, total_payout]
  | cons r rest ih =>
      have hcov' : ∀ x ∈ rest, x.country ∈ ks :=
        fun x hx => hcov x (List.mem_cons_of_mem r hx)
      have hr : r.country ∈ ks := hcov r (List.mem_cons_self r rest)
      calc (ks.map fun k => countryGroupSum k (r :: rest)).sum
          = (ks.map fun k =>
              (if r.country = k then r.payoutValue.getD 0 else 0)
                + countryGroupSum k rest).sum := by
            simp only [countryGroupSum_cons]
        _ = (ks.map fun k =>
              (if r.country = k then r.payoutValue.getD 0 else 0)).sum
            + (ks.map fun k => countryGroupSum k rest).sum :=
            sum_map_add ks _ _
        _ = r.payoutValue.getD 0 + total_payout rest := by
            rw [sum_map_ite _ _ _ hr hnd, ih hcov']
        _ = total_payout (r :: rest) := by
            simp [total_payout]

/-- An unmapped last segment is returned verbatim by `extract_country`. -/
lemma extract_country_verbatim (s l : String)
    (h1 : last_segment s = some l)
    (h2 : countrySynonyms.lookup l = none) :
    extract_country (some s) = l := by
  rw [extract_country, h1]
  show (countrySynonyms.lookup l).getD l = l
  rw [h2]
  rfl

/-! ### Claim theorems -/

/-- C1: every record of the table returned by `load_data` has a
non-null `Date` and a non-null `PayoutValue`, and any normalized row
failing either is excluded from the output (hence from everything
computed from it). -/
theorem spec_c1_row_invariant :
    (∀ (rows : List RawRow) (r : NormRow), r ∈ load_data rows →
        r.date.isSome = true ∧ r.payoutValue.isSome = true) ∧
    (∀ (rows : List RawRow) (r : NormRow),
        r.date = none ∨ r.payoutValue = none → r ∉ load_data rows) := by
  have hinv : ∀ (rows : List RawRow) (r : NormRow), r ∈ load_data rows →
      r.date.isSome = true ∧ r.payoutValue.isSome = true := by
    intro rows r hr
    rw [load_data, List.mem_filter] at hr
    have h2 := hr.2
    rw [Bool.and_eq_true] at h2
    exact ⟨h2.2, h2.1⟩
  refine ⟨hinv, ?_⟩
  intro rows r hfail hmem
  rcases hfail with h | h
  · have := (hinv rows r hmem).1
    rw [h] at this
    exact Bool.false_ne_true this
  · have := (hinv rows r hmem).2
    rw [h] at this
    exact Bool.false_ne_true this

/-- A raw row whose fields all parse, used to witness C1. -/
def c1raw : RawRow :=
  ⟨some "Mar 3, 2024", some "Carol", some "Paris, France", some "$7.50"⟩

/-- Witness for C1 at a concrete row. -/
theorem spec_c1_witness :
    normalizeRow c1raw ∈ load_data [c1raw] ∧
    (normalizeRow c1raw).date.isSome = true ∧
    (normalizeRow c1raw).payoutValue.isSome = true :=
  have hmem : normalizeRow c1raw ∈ load_data [c1raw] := by
    show normalizeRow c1raw ∈ [normalizeRow c1raw]
    exact List.Mem.head _
  ⟨hmem, spec_c1_row_invariant.1 [c1raw] _ hmem⟩

/-- The two-row input of the end-to-end spec example. -/
def exampleRows : List RawRow :=
  [⟨some "Jan 1, 2023", some "Alice", some "USA", some "$100"⟩,
   ⟨some "Feb 2, 2023", some "Bob", some "UK", some "200"⟩]

/-- The example table after normalization and an empty year selection. -/
def exampleTable : List NormRow :=
  filter_years [] (load_data exampleRows)

/-- C2: on the two-row example, the pipeline yields total payout 300,
record count 2, country aggregation `[(UK, 200), (USA, 100)]` and month
aggregation `[(2023-01, 100), (2023-02, 200)]`. -/
theorem spec_c2_end_to_end :
    total_payout exampleTable = 300 ∧
    total_records exampleTable = 2 ∧
    country_agg exampleTable = [("UK", 200), ("USA", 100)] ∧
    month_agg exampleTable = [("2023-01", 100), ("2023-02", 200)] := by
  refine ⟨?_, ?_, ?_, ?_⟩ <;> with_unfolding_all rfl

/-- C3 counterexample: a euro sign left in place does not make the
numeric match fail — the search skips it and extracts `100`, so the
result is not null. -/
theorem spec_c3_counterexample :
    parse_currency (some "€100") = some 100 ∧
    parse_currency (some "€100") ≠ none := by
  have h : parse_currency (some "€100") = some 100 := by
    with_unfolding_all rfl
  exact ⟨h, by rw [h]; simp⟩

/-- C3 (amended): `parse_currency` strips commas and then searches for
the leftmost match of the signed, optionally dollar-prefixed numeric
pattern; only `$` is recognized as a currency symbol, and any other
(ASCII) symbol left in place is never part of the numeric match but
does not by itself make the result null — the search skips it and
extracts the first numeric token after it (so `€100` yields `100`).
The result is still null on the code's two null paths: when no match is
found anywhere in the string (`abc`), or when conversion of the matched
token fails (`- 5`, whose matched token `- 5` does not convert). -/
theorem spec_c3_symbol_skip :
    (∀ (c : Char) (s : String), c.toNat < 128 → currencyRelevant c = false →
        parse_currency (some (String.mk (c :: s.data))) = parse_currency (some s)) ∧
    parse_currency (some "€100") = some 100 ∧
    parse_currency (some "abc") = none ∧
    parse_currency (some "- 5") = none := by
  refine ⟨fun c s _ h => parse_currency_cons_irrelevant c s h, ?_, ?_, ?_⟩
  · with_unfolding_all rfl
  · with_unfolding_all rfl
  · with_unfolding_all rfl

/-- Witness for the amended C3 at a concrete unrecognized symbol. -/
theorem spec_c3_witness :
    parse_currency (some (String.mk ('#' :: "5".data))) = parse_currency (some "5") :=
  spec_c3_symbol_skip.1 '#' "5" (by decide) (by decide)

/-- C4: the concrete currency parses of the spec, including a negative
value via a leading minus and null for the two non-numeric strings. -/
theorem spec_c4_currency_values :
    parse_currency (some "$1,234.56") = some (1234.56 : ℚ) ∧
    parse_currency (some "1234.56") = some (1234.56 : ℚ) ∧
    parse_currency (some "-$50") = some (-50.0 : ℚ) ∧
    parse_currency (some "N/A") = none ∧
    parse_currency (some "—") = none := by
  refine ⟨?_, ?_, ?_, ?_, ?_⟩ <;> with_unfolding_all rfl

/-- C5: the three supported date formats all parse their valid literal
to 2023-01-05, and a value matching none of them yields null. -/
theorem spec_c5_date_formats :
    parse_date (some "Jan 5, 2023") = some ⟨2023, 1, 5⟩ ∧
    parse_date (some "2023-01-05") = some ⟨2023, 1, 5⟩ ∧
    parse_date (some "01/05/2023") = some ⟨2023, 1, 5⟩ ∧
    parse_date (some "05-Jan-2023") = none := by
  refine ⟨?_, ?_, ?_, ?_⟩ <;> decide

/-- C6: `extract_country` returns `Unknown` on a null or fully empty
location, maps the spec's concrete examples as stated, and returns any
unmapped last segment verbatim. -/
theorem spec_c6_extract_country :
    extract_country none = "Unknown" ∧
    extract_country (some "") = "Unknown" ∧
    extract_country (some "Springfield, USA") = "USA" ∧
    extract_country (some "London, U.K.") = "UK" ∧
    extract_country (some "Mars") = "Mars" ∧
    (∀ s l : String, last_segment s = some l →
        countrySynonyms.lookup l = none → extract_country (some s) = l) := by
  refine ⟨rfl, ?_, ?_, ?_, ?_, extract_country_verbatim⟩ <;> decide

/-- Witness for the verbatim clause of C6 at a concrete location. -/
theorem spec_c6_witness : extract_country (some "Atlantis") = "Atlantis" :=
  spec_c6_extract_country.2.2.2.2.2 "Atlantis" "Atlantis" (by decide) (by decide)

/-- C7: an empty selected-year set applies no filtering at all. -/
theorem spec_c7_empty_filter :
    ∀ tbl : List NormRow, filter_years [] tbl = tbl :=
  fun _ => rfl

/-- A one-row concrete table used to witness the universally quantified
aggregation claims. -/
def witnessTable : List NormRow :=
  load_data [⟨some "2024-05-06", some "Dan", some "US", some "$12"⟩]

/-- Witness for C7 at a concrete table. -/
theorem spec_c7_witness : filter_years [] witnessTable = witnessTable :=
  spec_c7_empty_filter witnessTable

/-- C9: the per-country group sums add up to the total payout metric,
and the record-count metric is the number of filtered records. -/
theorem spec_c9_group_total :
    ∀ tbl : List NormRow,
      ((country_agg tbl).map Prod.snd).sum = total_payout tbl ∧
      total_records tbl = tbl.length := by
  intro tbl
  refine ⟨?_, rfl⟩
  have hperm : List.Perm (country_agg tbl) (countryGroups tbl) :=
    sortOrd_perm _ _
  rw [(hperm.map Prod.snd).sum_eq, countryGroups, List.map_map]
  have hkeys : List.Perm (sortOrd strLe (tbl.map fun r => r.country).dedup)
      ((tbl.map fun r => r.country).dedup) := sortOrd_perm _ _
  have hnd : (sortOrd strLe (tbl.map fun r => r.country).dedup).Nodup :=
    hkeys.nodup_iff.mpr (List.nodup_dedup _)
  have hcov : ∀ r ∈ tbl,
      r.country ∈ sortOrd strLe (tbl.map fun r => r.country).dedup := by
    intro r hr
    rw [hkeys.mem_iff, List.mem_dedup]
    exact List.mem_map_of_mem _ hr
  exact sum_countryGroupSum tbl _ hnd hcov

/-- Witness for C9 at a concrete table. -/
theorem spec_c9_witness :
    ((country_agg witnessTable).map Prod.snd).sum = total_payout witnessTable ∧
    total_records witnessTable = witnessTable.length :=
  spec_c9_group_total witnessTable

/-- C10: the country synonym table is case-sensitive and exact (the
lowercase variants stay verbatim, and any unmapped last segment stays
verbatim), while the loader's column-name matching is case-insensitive. -/
theorem spec_c10_case_sensitive :
    extract_country (some "usa") = "usa" ∧
    extract_country (some "united states") = "united states" ∧
    extract_country (some "Springfield, u.k.") = "u.k." ∧
    extract_country (some "London, uk") = "uk" ∧
    normalize_column "DATE" = some "Date" ∧
    normalize_column "dAtE" = some "Date" ∧
    normalize_column "COUNTRY" = some "Location" ∧
    normalize_column " Amount " = some "Payout" ∧
    (∀ s l : String, last_segment s = some l →
        countrySynonyms.lookup l = none → extract_country (some s) = l) := by
  refine ⟨?_, ?_, ?_, ?_, ?_, ?_, ?_, ?_, extract_country_verbatim⟩ <;> decide

/-- Witness for the verbatim clause of C10 at a concrete lowercase
country name. -/
theorem spec_c10_witness : extract_country (some "Paris, france") = "france" :=
  spec_c10_case_sensitive.2.2.2.2.2.2.2.2 "Paris, france" "france"
    (by decide) (by decide)

end ApexPayout
